import Mathlib

/-!
Shallow embedding of the websearxng-tool repository (src/src/websearx_tool/core.py,
src/src/websearx_tool/tools.py, and the legacy src/main.py revision where a claim
cites it), together with proofs settling the frozen claims.

Modelling conventions:
* Network and extraction capabilities (HTTP requests, the DDGS client, trafilatura,
  pdfminer, playwright) are opaque collaborators; their outcomes are supplied by
  environment records of oracle functions.  `none` for a response means the call
  raised an exception or returned a non-success status, exactly the cases the
  source's `try/except` blocks treat as failure.
* Python dicts keyed by `int` are modelled extensionally as `Nat → Option String`;
  every claim is about key presence and values, never about iteration order.
  The playwright queue, which the source iterates, is kept as an association list
  in insertion order.
* Python string operations (`strip`, `split`, `startswith`, `endswith`, `in`,
  `lower`, `replace`) are given small structural definitions with Python's
  semantics so that concrete witnesses reduce in the kernel.
* Machine integers: `max_results` is an `int` used only in a slice `[:m]`, so it
  is modelled as `Int` with Python slice semantics (`pyTake`).
-/

namespace Websearx

/-- Python whitespace test used by `str.strip` (ASCII cases). -/
def isSpace (c : Char) : Bool :=
  c == ' ' || c == '\t' || c == '\n' || c == '\r' || c == '\x0b' || c == '\x0c'

/-- Drop leading whitespace characters. -/
def dropSpaces : List Char → List Char
  | [] => []
  | c :: t => if isSpace c then dropSpaces t else c :: t

/-- Python `str.strip()`: remove whitespace from both ends. -/
def pyStrip (s : String) : String :=
  String.mk ((dropSpaces ((dropSpaces s.data).reverse)).reverse)

/-- Auxiliary for `pySplit`: accumulate the current (reversed) chunk. -/
def pySplitAux (sep : Char) : List Char → List Char → List String
  | [], acc => [String.mk acc.reverse]
  | c :: t, acc =>
      if c == sep then String.mk acc.reverse :: pySplitAux sep t []
      else pySplitAux sep t (c :: acc)

/-- Python `str.split(sep)` for a one-character separator. -/
def pySplit (sep : Char) (s : String) : List String :=
  pySplitAux sep s.data []

/-- List-level prefix test. -/
def listPre : List Char → List Char → Bool
  | [], _ => true
  | _ :: _, [] => false
  | a :: as, b :: bs => a == b && listPre as bs

/-- Auxiliary contiguous-sublist test. -/
def listInf (needle : List Char) : List Char → Bool
  | [] => listPre needle []
  | c :: t => listPre needle (c :: t) || listInf needle t

/-- Python `needle in hay` substring test. -/
def strContains (hay needle : String) : Bool :=
  listInf needle.data hay.data

/-- Python `str.startswith`. -/
def pyStartsWith (s pre : String) : Bool :=
  listPre pre.data s.data

/-- Python `str.endswith`. -/
def pyEndsWith (s suf : String) : Bool :=
  listPre suf.data.reverse s.data.reverse

/-- Python `sep in s` membership test for a single character. -/
def pyContainsChar (s : String) (c : Char) : Bool :=
  s.data.any (fun x => x == c)

/-- ASCII lower-casing of one character (what `str.lower` does on the
strings appearing in this code base). -/
def charLower (c : Char) : Char :=
  if 65 ≤ c.toNat && c.toNat ≤ 90 then Char.ofNat (c.toNat + 32) else c

/-- Python `str.lower()` (ASCII). -/
def pyLower (s : String) : String :=
  String.mk (s.data.map charLower)

/-- Python `str.replace(a, b)` for one-character `a` and `b`. -/
def pyReplaceChar (s : String) (a b : Char) : String :=
  String.mk (s.data.map (fun c => if c == a then b else c))

/-- Python slice `xs[:m]` for an `int` bound `m`: non-negative bounds take a
prefix, negative bounds drop `|m|` elements from the end. -/
def pyTake (m : Int) (xs : List α) : List α :=
  if 0 ≤ m then xs.take m.toNat else xs.take (xs.length - (-m).toNat)

/-! ## Search backend selector (core.py, class WebSearchAgent) -/

/-- Normalized search result (core.py, class Result).  `full_content` is only
populated by the orchestration layer (tools.py, web_search). -/
structure Result where
  url : String
  title : String
  snippet : Option String
  full_content : Option String
deriving Repr, DecidableEq

/-- Raw record returned by a backend before validation.  The pydantic model
accepts `href` or `url` for the URL and maps `body`, else `content`, onto
`snippet` (core.py, Result.handle_aliases). -/
structure RawRecord where
  href : Option String
  url : Option String
  title : String
  body : Option String
  content : Option String
  snippet : Option String
deriving Repr, DecidableEq

/-- Validation of one raw record into a `Result` (core.py, class Result with
its model validator).  A record with neither `href` nor `url` would fail
validation, which the callers treat as backend failure; environments whose
response is `some rs` stand for a response whose records all validate. -/
def toResult (r : RawRecord) : Result :=
  { url := (r.href.orElse (fun _ => r.url)).getD ""
  , title := r.title
  , snippet :=
      match r.body with
      | some b => some b
      | none =>
          match r.content with
          | some c => some c
          | none => r.snippet
  , full_content := none }

/-- One network interaction of the selector: the availability probe of the
SearXNG host (GET /config in _check_agent), a SearXNG search request
(GET /search in searxng_search), or a DDGS client call (ddgs_search). -/
inductive Attempt
  | probe
  | sx
  | dd
deriving Repr, DecidableEq

/-- Which bound method _check_agent returned. -/
inductive Backend
  | sxB
  | ddB
deriving Repr, DecidableEq

/-- Oracle for the network outcomes of one logical search request.
`configOk` is the probe outcome: response `ok` with an `engines` marker in
the body (a connection error counts as `false`, matching the except clause).
A backend response of `none` means a non-200 status, a transport error, or a
response whose records fail validation, i.e. every path that lands in the
method's `except` clause. -/
structure NetEnv where
  configOk : Bool
  searxngResp : Option (List RawRecord)
  ddgsResp : Option (List RawRecord)

/-- core.py, WebSearchAgent._check_agent: agent "ddgs" is returned directly
with no probe; otherwise the SearXNG host is probed and searxng_search is
chosen exactly when the probe succeeds. -/
def check_agent (env : NetEnv) (agent : String) : Backend × List Attempt :=
  if agent = "ddgs" then (Backend.ddB, [])
  else if env.configOk then (Backend.sxB, [Attempt.probe])
  else (Backend.ddB, [Attempt.probe])

mutual

/-- core.py, WebSearchAgent.searxng_search.  `retry` is the mutable
`switch_and_retry` flag, `true` at construction time for every request; on
failure it is set to `false` and ddgs_search is invoked once.  The second
component records the network attempts in order. -/
def searxng_search (env : NetEnv) (maxr : Int) (agentName : String)
    (retry : Bool) : List Result × List Attempt :=
  match env.searxngResp with
  | some rs => (pyTake maxr (rs.map toResult), [Attempt.sx])
  | none =>
      if retry then
        let p := ddgs_search env maxr agentName false
        (p.1, Attempt.sx :: p.2)
      else ([], [Attempt.sx])
termination_by if retry then 1 else 0
decreasing_by simp_all

/-- core.py, WebSearchAgent.ddgs_search.  On failure it falls back to
searxng_search only when the flag is still set and the constructed agent name
is not "searxng". -/
def ddgs_search (env : NetEnv) (maxr : Int) (agentName : String)
    (retry : Bool) : List Result × List Attempt :=
  match env.ddgsResp with
  | some rs => (pyTake maxr (rs.map toResult), [Attempt.dd])
  | none =>
      if retry && !(agentName == "searxng") then
        let p := searxng_search env maxr agentName false
        (p.1, Attempt.dd :: p.2)
      else ([], [Attempt.dd])
termination_by if retry then 1 else 0
decreasing_by simp_all

end

/-- tools.py, web_search steps 1-2: a WebSearchAgent is constructed with the
default agent "searxng" (so the probe always runs) and its bound
`agent_func` is invoked with the flag fresh. -/
def agent_run (env : NetEnv) (maxr : Int) : List Result × List Attempt :=
  match check_agent env "searxng" with
  | (Backend.sxB, t0) =>
      let p := searxng_search env maxr "searxng" true
      (p.1, t0 ++ p.2)
  | (Backend.ddB, t0) =>
      let p := ddgs_search env maxr "searxng" true
      (p.1, t0 ++ p.2)

/-! ## Legacy revision (src/main.py): search functions with query validation -/

mutual

/-- main.py, WebSearchAgent.searxng_search.  Unlike the packaged core.py
version, it raises ValueError("Search query cannot be NULL") on a blank
query; the raise sits before the try block, so it is not caught and no
search request is issued on that path. -/
def main_searxng_search (env : NetEnv) (maxr : Int) (agentName : String)
    (retry : Bool) (query : String) : Except String (List Result) × List Attempt :=
  if pyStrip query = "" then (Except.error "Search query cannot be NULL", [])
  else
    match env.searxngResp with
    | some rs => (Except.ok (pyTake maxr (rs.map toResult)), [Attempt.sx])
    | none =>
        if retry then
          let p := main_ddgs_search env maxr agentName false query
          (p.1, Attempt.sx :: p.2)
        else (Except.ok [], [Attempt.sx])
termination_by if retry then 1 else 0
decreasing_by simp_all

/-- main.py, WebSearchAgent.ddgs_search, with the same blank-query raise. -/
def main_ddgs_search (env : NetEnv) (maxr : Int) (agentName : String)
    (retry : Bool) (query : String) : Except String (List Result) × List Attempt :=
  if pyStrip query = "" then (Except.error "Search query cannot be NULL", [])
  else
    match env.ddgsResp with
    | some rs => (Except.ok (pyTake maxr (rs.map toResult)), [Attempt.dd])
    | none =>
        if retry && !(agentName == "searxng") then
          let p := main_searxng_search env maxr agentName false query
          (p.1, Attempt.dd :: p.2)
        else (Except.ok [], [Attempt.dd])
termination_by if retry then 1 else 0
decreasing_by simp_all

end

/-- main.py, web_search, modelled through the search invocation: the agent is
constructed with the default agent "searxng" (the constructor's _check_agent
already issues the availability probe) and the chosen bound method is then
called with the query.  The post-search scrape/serialization steps are
unreachable on the error path this development reasons about and are not
modelled. -/
def main_web_search (env : NetEnv) (maxr : Int) (query : String) :
    Except String (List Result) × List Attempt :=
  match check_agent env "searxng" with
  | (Backend.sxB, t0) =>
      let p := main_searxng_search env maxr "searxng" true query
      (p.1, t0 ++ p.2)
  | (Backend.ddB, t0) =>
      let p := main_ddgs_search env maxr "searxng" true query
      (p.1, t0 ++ p.2)

/-! ## Content retrieval pipeline (core.py smart_fetch / UrlContent /
fetch_rendered_text, tools.py get_url_content / web_search) -/

/-- Oracle for the network outcomes of one smart_fetch call (core.py,
smart_fetch).  `head` is the lower-cased-later Content-Type of the HEAD
probe (`none` = the request raised); `pdf` is the pdfminer extraction of the
full download (`none` = the GET or the extraction raised); `downloaded` is
the truthiness of trafilatura.fetch_url; `extracted` is trafilatura.extract
(`none` = falsy result, i.e. None). -/
structure FetchEnv where
  head : Option String
  pdf : Option String
  downloaded : Bool
  extracted : Option String

/-- core.py, smart_fetch: PDF content types go through the document-text
extractor; otherwise a trafilatura fetch-and-extract is attempted and its
text is returned unless it is empty or carries the JavaScript-shell marker.
Every exception path returns `none`. -/
def smart_fetch (e : FetchEnv) : Option String :=
  match e.head with
  | none => none
  | some ct =>
      if strContains (pyLower ct) "pdf" then e.pdf
      else if e.downloaded then
        match e.extracted with
        | some text =>
            if text ≠ "" && !strContains (pyLower text) "enable javascript" then
              some text
            else none
        | none => none
      else none

/-- Python truthiness of smart_fetch's Optional[str] result, as tested by
`if fetched_text:` in tools.py: usable text iff present and non-empty. -/
def fetchText : Option String → Option String
  | some t => if t = "" then none else some t
  | none => none

/-- Environment for one get_url_content call: the smart_fetch outcome and the
playwright render outcome for the resource processed at each position, and
the two json.loads attempts of the input sanitizer (`none` = raised;
`some none` = parsed to a non-list; `some (some l)` = parsed to a list). -/
structure CEnv where
  fetch : Nat → String → FetchEnv
  render : Nat → String → Option String
  jsonLoads : String → Option (Option (List String))
  jsonLoads2 : String → Option (Option (List String))

/-- The empty int-keyed Python dict. -/
def dempty : Nat → Option String := fun _ => none

/-- Python dict assignment `d[k] = v`. -/
def dset (d : Nat → Option String) (k : Nat) (v : String) : Nat → Option String :=
  fun j => if j = k then some v else d j

/-- Python `d.update(other)`: keys of `other` win. -/
def dupdate (d other : Nat → Option String) : Nat → Option String :=
  fun j =>
    match other j with
    | some v => some v
    | none => d j

/-- Lookup in the insertion-ordered playwright queue. -/
def qlookup (q : List (Nat × String)) (k : Nat) : Option String :=
  (q.find? (fun p => p.1 == k)).map (fun p => p.2)

/-- The text stored for one queued resource by fetch_rendered_text:
`content[index] = text if text else ""` inside the try, and `""` when the
per-resource navigation or parse raised (`render = none`). -/
def renderVal : Option String → String
  | some text => if text = "" then "" else text
  | none => ""

/-- core.py, fetch_rendered_text: an empty queue is a no-op; otherwise every
queued (index, url) pair is visited in order and its position is always
written, with `""` on a per-resource failure. -/
def fetch_rendered_text (render : Nat → String → Option String)
    (urls : List (Nat × String)) : Nat → Option String :=
  if urls.isEmpty then dempty
  else urls.foldl (fun content p => dset content p.1 (renderVal (render p.1 p.2))) dempty

/-- core.py, class UrlContent.  Python's dynamically-typed `self.text` is
split into `textS` (single mode) and `textD` (dict mode) selected by
`is_dict`; `pw_queue` keeps its dict insertion order because
fetch_rendered_text iterates it. -/
structure UrlContent where
  textS : String
  textD : Nat → Option String
  index : Nat
  pw_queue : List (Nat × String)
  is_dict : Bool

/-- core.py, UrlContent.__init__. -/
def UrlContent.init (n : Nat) : UrlContent :=
  { textS := "", textD := dempty, index := 0, pw_queue := [], is_dict := decide (1 < n) }

/-- core.py, UrlContent.add_text. -/
def UrlContent.add_text (c : UrlContent) (text : String) : UrlContent :=
  if c.is_dict then
    { c with textD := dset c.textD c.index text, index := c.index + 1 }
  else
    { c with textS := text, index := c.index + 1 }

/-- core.py, UrlContent.add_to_queue.  `pw_queue[self.index] = url` always
uses a fresh key (the counter only grows), so it is an append. -/
def UrlContent.add_to_queue (c : UrlContent) (url : String) : UrlContent :=
  { c with pw_queue := c.pw_queue ++ [(c.index, url)], index := c.index + 1 }

/-- Result shape of UrlContent.dump / get_url_content: a bare string or an
int-keyed dict. -/
inductive DumpResult
  | str (s : String)
  | dict (d : Nat → Option String)

/-- core.py, UrlContent.dump: a non-empty queue triggers the render pass; its
output is merged into the dict in dict mode, and in single mode position 0
is unwrapped when present (otherwise `self.text` is left as it is). -/
def UrlContent.dump (render : Nat → String → Option String) (c : UrlContent) :
    DumpResult :=
  if !c.pw_queue.isEmpty then
    let content := fetch_rendered_text render c.pw_queue
    if c.is_dict then DumpResult.dict (dupdate c.textD content)
    else
      DumpResult.str
        (match content 0 with
         | some t => t
         | none => c.textS)
  else if c.is_dict then DumpResult.dict c.textD
  else DumpResult.str c.textS

/-- tools.py, get_url_content, scraping loop: each URL is smart-fetched; a
truthy text is added immediately, anything else is queued for rendering.
The oracle is indexed by `c.index`, which equals the number of URLs already
processed. -/
def processUrls (env : CEnv) (c : UrlContent) : List String → UrlContent
  | [] => c
  | current_url :: rest =>
      match smart_fetch (env.fetch c.index current_url) with
      | some fetched_text =>
          if fetched_text ≠ "" then
            processUrls env (c.add_text fetched_text) rest
          else
            processUrls env (c.add_to_queue current_url) rest
      | none => processUrls env (c.add_to_queue current_url) rest

/-- Python truthiness of a string: non-empty.  Used by the sanitizer's
`if u.strip()` and `if u` filters. -/
def truthyStr (u : String) : Bool := u ≠ ""

/-- Input accepted by get_url_content: one string or a list of strings. -/
inductive UrlsInput
  | str (s : String)
  | list (l : List String)

/-- tools.py, get_url_content: input sanitization (bracketed strings go
through json.loads twice, comma-separated strings are split and stripped,
empty entries are dropped), then the scraping loop, then dump. -/
def get_url_content (env : CEnv) (urls : UrlsInput) : DumpResult :=
  let url_list :=
    match urls with
    | UrlsInput.str s =>
        let cleaned := pyStrip s
        if pyStartsWith cleaned "[" && pyEndsWith cleaned "]" then
          match env.jsonLoads cleaned with
          | some (some parsed) => parsed
          | some none => [cleaned]
          | none =>
              match env.jsonLoads2 (pyReplaceChar cleaned '\x27' '\x22') with
              | some (some parsed) => parsed
              | some none => [cleaned]
              | none => [cleaned]
        else if pyContainsChar cleaned ',' then
          ((pySplit ',' cleaned).map pyStrip).filter truthyStr
        else [cleaned]
    | UrlsInput.list l => l
  let url_list := url_list.filter truthyStr
  let content := processUrls env (UrlContent.init url_list.length) url_list
  content.dump env.render

/-- tools.py, web_search step 3, dict case: `for i, result in
enumerate(results)` sets full_content from the scraped map where the
position is present. -/
def merge_full (m : Nat → Option String) (i : Nat) : List Result → List Result
  | [] => []
  | r :: rest =>
      (match m i with
       | some v => { r with full_content := some v }
       | none => r) :: merge_full m (i + 1) rest

/-- Combined oracle environment for tools.py, web_search. -/
structure Env where
  net : NetEnv
  content : CEnv

/-- tools.py, web_search: run the selected agent, return [] on no results,
optionally scrape all result URLs and attach the text per position.  The
first component is the result list before `model_dump(exclude_none=True)`
(field presence in the dumped JSON object equals `isSome` here); the second
records the selector's network attempts.  `query` and `time_range` only
parameterize the backend request, whose outcome the oracle fixes. -/
def web_searchT (env : Env) (query : String) (time_range : Option String)
    (full_content : Bool) (max_results : Int) : List Result × List Attempt :=
  let p := agent_run env.net max_results
  let results := p.1
  if results.isEmpty then ([], p.2)
  else if full_content then
    let urls := results.map (fun r => r.url)
    let merged :=
      match get_url_content env.content (UrlsInput.list urls) with
      | DumpResult.dict m => merge_full m 0 results
      | DumpResult.str s =>
          if results.length = 1 then
            results.map (fun r => { r with full_content := some s })
          else results
    (merged, p.2)
  else (results, p.2)

/-! ## Helper lemmas -/

theorem qlookup_nil (j : Nat) : qlookup [] j = none := rfl

theorem qlookup_cons (k : Nat) (u : String) (t : List (Nat × String)) (j : Nat) :
    qlookup ((k, u) :: t) j = if k = j then some u else qlookup t j := by
  by_cases h : k = j <;> simp [qlookup, List.find?_cons, h]

theorem qlookup_append (q q2 : List (Nat × String)) (j : Nat) :
    qlookup (q ++ q2) j =
      match qlookup q j with
      | some v => some v
      | none => qlookup q2 j := by
  induction q with
  | nil => simp [qlookup_nil]
  | cons p t ih =>
      rw [List.cons_append]
      rw [show p = (p.1, p.2) from rfl, qlookup_cons, qlookup_cons]
      by_cases h : p.1 = j <;> simp [h, ih]

theorem qlookup_eq_none_of (q : List (Nat × String)) (j : Nat)
    (h : ∀ p ∈ q, p.1 ≠ j) : qlookup q j = none := by
  induction q with
  | nil => rfl
  | cons p t ih =>
      rw [show p = (p.1, p.2) from rfl, qlookup_cons]
      have hp : p.1 ≠ j := h p (by simp)
      simp [hp]
      exact ih (fun a ha => h a (by simp [ha]))

theorem qlookup_some_mem (q : List (Nat × String)) (j : Nat) (u : String)
    (h : qlookup q j = some u) : (j, u) ∈ q := by
  induction q with
  | nil => simp [qlookup_nil] at h
  | cons p t ih =>
      rw [show p = (p.1, p.2) from rfl, qlookup_cons] at h
      by_cases hp : p.1 = j
      · simp [hp] at h
        subst hp
        subst h
        exact List.mem_cons_self _ _
      · simp [hp] at h
        exact List.mem_cons_of_mem _ (ih h)

theorem qlookup_of_mem_nodup (q : List (Nat × String)) (j : Nat) (u : String)
    (hnd : (q.map Prod.fst).Nodup) (hm : (j, u) ∈ q) : qlookup q j = some u := by
  induction q with
  | nil => simp at hm
  | cons p t ih =>
      rw [List.map_cons, List.nodup_cons] at hnd
      rw [show p = (p.1, p.2) from rfl, qlookup_cons]
      rcases List.mem_cons.mp hm with h | h
      · rw [show p = (p.1, p.2) from rfl] at h
        injection h with h1 h2
        simp [h1, h2]
      · have hne : p.1 ≠ j := by
          intro he
          exact hnd.1 (he ▸ List.mem_map.mpr ⟨(j, u), h, rfl⟩)
        simp [hne]
        exact ih hnd.2 h

theorem frt_fold_apply (render : Nat → String → Option String) :
    ∀ (q : List (Nat × String)) (acc : Nat → Option String) (j : Nat),
      (q.map Prod.fst).Nodup →
      (q.foldl (fun content p => dset content p.1 (renderVal (render p.1 p.2))) acc) j =
        (match qlookup q j with
         | some u => some (renderVal (render j u))
         | none => acc j) := by
  intro q
  induction q with
  | nil => intro acc j _; rfl
  | cons p t ih =>
      intro acc j hnd
      rw [List.map_cons, List.nodup_cons] at hnd
      rw [List.foldl_cons, ih _ j hnd.2]
      rw [show p = (p.1, p.2) from rfl, qlookup_cons]
      by_cases hpj : p.1 = j
      · subst hpj
        have ht : qlookup t p.1 = none := by
          apply qlookup_eq_none_of
          intro a ha he
          exact hnd.1 (he ▸ List.mem_map.mpr ⟨a, ha, rfl⟩)
        simp [ht, dset]
      · cases h : qlookup t j with
        | some v => simp [hpj, h]
        | none =>
            rw [if_neg hpj]
            simp only [dset]
            rw [if_neg (fun he : j = p.1 => hpj he.symm)]

theorem frt_apply (render : Nat → String → Option String)
    (q : List (Nat × String)) (j : Nat) (hnd : (q.map Prod.fst).Nodup) :
    fetch_rendered_text render q j =
      (match qlookup q j with
       | some u => some (renderVal (render j u))
       | none => none) := by
  cases q with
  | nil => rfl
  | cons p t =>
      unfold fetch_rendered_text
      rw [if_neg (by simp)]
      exact frt_fold_apply render (p :: t) dempty j hnd

/-- The per-position invariant of the scraping loop: the dict and the queue
only hold positions strictly below the running counter, and queue keys are
distinct. -/
def Cinv (c : UrlContent) : Prop :=
  (∀ j, c.index ≤ j → c.textD j = none) ∧
  (∀ p ∈ c.pw_queue, p.1 < c.index) ∧
  (c.pw_queue.map Prod.fst).Nodup

theorem Cinv_init (n : Nat) : Cinv (UrlContent.init n) := by
  refine ⟨fun j _ => rfl, fun p hp => by simp [UrlContent.init] at hp, by simp [UrlContent.init]⟩

theorem add_text_index (c : UrlContent) (t : String) :
    (c.add_text t).index = c.index + 1 := by
  unfold UrlContent.add_text; split <;> rfl

theorem add_text_queue (c : UrlContent) (t : String) :
    (c.add_text t).pw_queue = c.pw_queue := by
  unfold UrlContent.add_text; split <;> rfl

theorem add_text_isdict (c : UrlContent) (t : String) :
    (c.add_text t).is_dict = c.is_dict := by
  unfold UrlContent.add_text; split <;> rfl

theorem add_text_textD (c : UrlContent) (t : String) :
    (c.add_text t).textD = if c.is_dict then dset c.textD c.index t else c.textD := by
  unfold UrlContent.add_text
  by_cases h : c.is_dict = true <;> simp [h]

theorem add_queue_index (c : UrlContent) (u : String) :
    (c.add_to_queue u).index = c.index + 1 := rfl

theorem add_queue_queue (c : UrlContent) (u : String) :
    (c.add_to_queue u).pw_queue = c.pw_queue ++ [(c.index, u)] := rfl

theorem add_queue_isdict (c : UrlContent) (u : String) :
    (c.add_to_queue u).is_dict = c.is_dict := rfl

theorem add_queue_textD (c : UrlContent) (u : String) :
    (c.add_to_queue u).textD = c.textD := rfl

theorem Cinv_add_text (c : UrlContent) (t : String) (h : Cinv c) :
    Cinv (c.add_text t) := by
  obtain ⟨h1, h2, h3⟩ := h
  refine ⟨?_, ?_, ?_⟩
  · intro j hj
    rw [add_text_index] at hj
    rw [add_text_textD]
    split
    · have : j ≠ c.index := by omega
      simp [dset, this]
      exact h1 j (by omega)
    · exact h1 j (by omega)
  · intro p hp
    rw [add_text_queue] at hp
    rw [add_text_index]
    exact Nat.lt_succ_of_lt (h2 p hp)
  · rw [add_text_queue]; exact h3

theorem Cinv_add_to_queue (c : UrlContent) (u : String) (h : Cinv c) :
    Cinv (c.add_to_queue u) := by
  obtain ⟨h1, h2, h3⟩ := h
  refine ⟨?_, ?_, ?_⟩
  · intro j hj
    rw [add_queue_index] at hj
    rw [add_queue_textD]
    exact h1 j (by omega)
  · intro p hp
    rw [add_queue_queue] at hp
    rw [add_queue_index]
    rcases List.mem_append.mp hp with h | h
    · exact Nat.lt_succ_of_lt (h2 p h)
    · simp at h
      subst h
      exact Nat.lt_succ_self _
  · rw [add_queue_queue, List.map_append]
    apply List.Nodup.append h3 (by simp)
    intro a ha hb
    simp at hb
    rcases List.mem_map.mp ha with ⟨p, hp, he⟩
    have := h2 p hp
    omega

theorem processUrls_cons_some (env : CEnv) (c : UrlContent) (u : String)
    (rest : List String) (t : String)
    (hf : fetchText (smart_fetch (env.fetch c.index u)) = some t) :
    processUrls env c (u :: rest) = processUrls env (c.add_text t) rest := by
  simp only [processUrls]
  cases hs : smart_fetch (env.fetch c.index u) with
  | none => rw [hs] at hf; simp [fetchText] at hf
  | some t2 =>
      rw [hs] at hf
      by_cases h2 : t2 = ""
      · simp [fetchText, h2] at hf
      · simp [fetchText, h2] at hf
        subst hf
        simp [h2]

theorem processUrls_cons_none (env : CEnv) (c : UrlContent) (u : String)
    (rest : List String)
    (hf : fetchText (smart_fetch (env.fetch c.index u)) = none) :
    processUrls env c (u :: rest) = processUrls env (c.add_to_queue u) rest := by
  simp only [processUrls]
  cases hs : smart_fetch (env.fetch c.index u) with
  | none => rfl
  | some t2 =>
      rw [hs] at hf
      by_cases h2 : t2 = ""
      · subst h2
        simp
      · simp [fetchText, h2] at hf

theorem processUrls_index (env : CEnv) :
    ∀ (l : List String) (c : UrlContent),
      (processUrls env c l).index = c.index + l.length := by
  intro l
  induction l with
  | nil => intro c; rfl
  | cons u rest ih =>
      intro c
      cases hf : fetchText (smart_fetch (env.fetch c.index u)) with
      | some t =>
          rw [processUrls_cons_some env c u rest t hf, ih, add_text_index,
            List.length_cons]
          omega
      | none =>
          rw [processUrls_cons_none env c u rest hf, ih, add_queue_index,
            List.length_cons]
          omega

theorem processUrls_isdict (env : CEnv) :
    ∀ (l : List String) (c : UrlContent),
      (processUrls env c l).is_dict = c.is_dict := by
  intro l
  induction l with
  | nil => intro c; rfl
  | cons u rest ih =>
      intro c
      cases hf : fetchText (smart_fetch (env.fetch c.index u)) with
      | some t => rw [processUrls_cons_some env c u rest t hf, ih, add_text_isdict]
      | none => rw [processUrls_cons_none env c u rest hf, ih, add_queue_isdict]

theorem processUrls_inv (env : CEnv) :
    ∀ (l : List String) (c : UrlContent), Cinv c → Cinv (processUrls env c l) := by
  intro l
  induction l with
  | nil => intro c h; exact h
  | cons u rest ih =>
      intro c h
      cases hf : fetchText (smart_fetch (env.fetch c.index u)) with
      | some t =>
          rw [processUrls_cons_some env c u rest t hf]
          exact ih _ (Cinv_add_text c t h)
      | none =>
          rw [processUrls_cons_none env c u rest hf]
          exact ih _ (Cinv_add_to_queue c u h)

theorem qlookup_append_low (c : UrlContent) (u : String) (j : Nat)
    (hj : j < c.index) :
    qlookup (c.pw_queue ++ [(c.index, u)]) j = qlookup c.pw_queue j := by
  rw [qlookup_append]
  cases hx : qlookup c.pw_queue j with
  | some v => rfl
  | none =>
      rw [qlookup_cons, if_neg (by omega)]
      rfl

theorem processUrls_low (env : CEnv) :
    ∀ (l : List String) (c : UrlContent) (j : Nat), j < c.index →
      (processUrls env c l).textD j = c.textD j ∧
      qlookup (processUrls env c l).pw_queue j = qlookup c.pw_queue j := by
  intro l
  induction l with
  | nil => intro c j _; exact ⟨rfl, rfl⟩
  | cons u rest ih =>
      intro c j hj
      cases hf : fetchText (smart_fetch (env.fetch c.index u)) with
      | some t =>
          rw [processUrls_cons_some env c u rest t hf]
          have step := ih (c.add_text t) j (by rw [add_text_index]; omega)
          rw [step.1, step.2, add_text_queue, add_text_textD]
          refine ⟨?_, rfl⟩
          split
          · have hne : j ≠ c.index := by omega
            simp [dset, hne]
          · rfl
      | none =>
          rw [processUrls_cons_none env c u rest hf]
          have step := ih (c.add_to_queue u) j (by rw [add_queue_index]; omega)
          rw [step.1, step.2, add_queue_textD, add_queue_queue,
            qlookup_append_low c u j hj]
          exact ⟨rfl, rfl⟩

theorem processUrls_char (env : CEnv) :
    ∀ (l : List String) (c : UrlContent), Cinv c →
      ∀ (k : Nat) (hk : k < l.length),
      ((processUrls env c l).textD (c.index + k) =
        (if c.is_dict then
           fetchText (smart_fetch (env.fetch (c.index + k) (l.get ⟨k, hk⟩)))
         else none)) ∧
      (qlookup (processUrls env c l).pw_queue (c.index + k) =
        (if (fetchText (smart_fetch (env.fetch (c.index + k) (l.get ⟨k, hk⟩)))).isSome
         then none
         else some (l.get ⟨k, hk⟩))) := by
  intro l
  induction l with
  | nil => intro c _ k hk; exact absurd hk (by simp)
  | cons u rest ih =>
      intro c hinv k hk
      cases k with
      | zero =>
          have hget : (u :: rest).get ⟨0, hk⟩ = u := rfl
          rw [hget, Nat.add_zero]
          have hqnone : qlookup c.pw_queue c.index = none := by
            apply qlookup_eq_none_of
            intro p hp
            have := hinv.2.1 p hp
            omega
          have htd : c.textD c.index = none := hinv.1 c.index (Nat.le_refl _)
          cases hf : fetchText (smart_fetch (env.fetch c.index u)) with
          | some t =>
              rw [processUrls_cons_some env c u rest t hf]
              have step := processUrls_low env rest (c.add_text t) c.index
                (by rw [add_text_index]; omega)
              rw [step.1, step.2, add_text_queue, add_text_textD, hqnone]
              constructor
              · split
                · simp [dset]
                · exact htd
              · simp
          | none =>
              rw [processUrls_cons_none env c u rest hf]
              have step := processUrls_low env rest (c.add_to_queue u) c.index
                (by rw [add_queue_index]; omega)
              rw [step.1, step.2, add_queue_textD, add_queue_queue]
              rw [qlookup_append, hqnone, qlookup_cons, if_pos rfl]
              refine ⟨?_, rfl⟩
              split <;> simp [htd]
      | succ k =>
          have hk2 : k < rest.length := by
            rw [List.length_cons] at hk
            omega
          have hget : (u :: rest).get ⟨k + 1, hk⟩ = rest.get ⟨k, hk2⟩ := rfl
          rw [hget]
          have harith : c.index + (k + 1) = c.index + 1 + k := by omega
          rw [harith]
          cases hf : fetchText (smart_fetch (env.fetch c.index u)) with
          | some t =>
              rw [processUrls_cons_some env c u rest t hf]
              have step := ih (c.add_text t) (Cinv_add_text c t hinv) k hk2
              rw [add_text_index, add_text_isdict] at step
              exact step
          | none =>
              rw [processUrls_cons_none env c u rest hf]
              have step := ih (c.add_to_queue u) (Cinv_add_to_queue c u hinv) k hk2
              rw [add_queue_index, add_queue_isdict] at step
              exact step

theorem dump_dict_shape (render : Nat → String → Option String) (c : UrlContent)
    (h : c.is_dict = true) : ∃ d, c.dump render = DumpResult.dict d := by
  unfold UrlContent.dump
  by_cases hq : c.pw_queue.isEmpty = true
  · simp [hq, h]
  · simp [hq, h]

theorem dump_str_shape (render : Nat → String → Option String) (c : UrlContent)
    (h : c.is_dict = false) : ∃ s, c.dump render = DumpResult.str s := by
  unfold UrlContent.dump
  by_cases hq : c.pw_queue.isEmpty = true
  · simp [hq, h]
  · simp [hq, h]

theorem guc_list_char (env : CEnv) (l : List String)
    (hne : ∀ u ∈ l, u ≠ "") (h2 : 2 ≤ l.length) :
    ∃ dm, get_url_content env (UrlsInput.list l) = DumpResult.dict dm ∧
      (∀ (k : Nat) (hk : k < l.length),
        dm k = (match fetchText (smart_fetch (env.fetch k (l.get ⟨k, hk⟩))) with
          | some t => some t
          | none => some (renderVal (env.render k (l.get ⟨k, hk⟩))))) ∧
      (∀ k, l.length ≤ k → dm k = none) := by
  have hfil : l.filter truthyStr = l := by
    rw [List.filter_eq_self]
    intro a ha
    simp [truthyStr, hne a ha]
  have hinv0 : Cinv (UrlContent.init l.length) := Cinv_init _
  have hdict0 : (UrlContent.init l.length).is_dict = true := by
    simp [UrlContent.init]
    omega
  have hchar := processUrls_char env l (UrlContent.init l.length) hinv0
  have hinv := processUrls_inv env l (UrlContent.init l.length) hinv0
  have hidx : (processUrls env (UrlContent.init l.length) l).index = l.length := by
    rw [processUrls_index]
    simp [UrlContent.init]
  have hdict : (processUrls env (UrlContent.init l.length) l).is_dict = true := by
    rw [processUrls_isdict]
    exact hdict0
  have hzero : (UrlContent.init l.length).index = 0 := rfl
  rw [hzero] at hchar
  simp only [Nat.zero_add, hdict0, if_true] at hchar
  set c2 := processUrls env (UrlContent.init l.length) l with hc2
  have hqhigh : ∀ k, l.length ≤ k → qlookup c2.pw_queue k = none := by
    intro k hk
    apply qlookup_eq_none_of
    intro p hp
    have := hinv.2.1 p hp
    rw [hidx] at this
    omega
  have htdhigh : ∀ k, l.length ≤ k → c2.textD k = none := by
    intro k hk
    apply hinv.1
    rw [hidx]
    exact hk
  unfold get_url_content
  simp only [hfil]
  rw [← hc2]
  unfold UrlContent.dump
  by_cases hq : c2.pw_queue.isEmpty = true
  · rw [if_neg (by simp [hq]), if_pos hdict]
    refine ⟨c2.textD, rfl, ?_, htdhigh⟩
    intro k hk
    have hqe : c2.pw_queue = [] := List.isEmpty_iff.mp hq
    have h1 := (hchar k hk).1
    have hql := (hchar k hk).2
    rw [hqe, qlookup_nil] at hql
    cases hfx : fetchText (smart_fetch (env.fetch k (l.get ⟨k, hk⟩))) with
    | some t =>
        rw [hfx] at h1
        rw [h1]
    | none =>
        rw [hfx] at hql
        simp at hql
  · have hq2 : c2.pw_queue.isEmpty = false := by
      revert hq
      cases c2.pw_queue.isEmpty <;> simp
    rw [if_pos (by simp [hq2]), if_pos hdict]
    refine ⟨dupdate c2.textD (fetch_rendered_text env.render c2.pw_queue), rfl, ?_, ?_⟩
    · intro k hk
      have h1 := (hchar k hk).1
      have hql := (hchar k hk).2
      have hfrt := frt_apply env.render c2.pw_queue k hinv.2.2
      cases hfx : fetchText (smart_fetch (env.fetch k (l.get ⟨k, hk⟩))) with
      | some t =>
          rw [hfx] at h1 hql
          simp at hql
          rw [hql] at hfrt
          simp only at hfrt
          simp [dupdate, hfrt, h1]
      | none =>
          rw [hfx] at h1 hql
          simp at hql
          rw [hql] at hfrt
          simp only at hfrt
          simp [dupdate, hfrt]
    · intro k hk
      have hfrt := frt_apply env.render c2.pw_queue k hinv.2.2
      rw [hqhigh k hk] at hfrt
      simp only at hfrt
      simp [dupdate, hfrt, htdhigh k hk]

theorem merge_full_get? (m : Nat → Option String) :
    ∀ (l : List Result) (i k : Nat),
      (merge_full m i l).get? k = (l.get? k).map (fun r =>
        match m (i + k) with
        | some v => { r with full_content := some v }
        | none => r) := by
  intro l
  induction l with
  | nil => intro i k; simp [merge_full]
  | cons r rest ih =>
      intro i k
      cases k with
      | zero => simp [merge_full]
      | succ k =>
          have harith : i + (k + 1) = i + 1 + k := by omega
          simp only [merge_full, List.get?_cons_succ, harith]
          exact ih (i + 1) k

theorem merge_full_map (m : Nat → Option String)
    (f : Result → String × String × Option String)
    (hf : ∀ r v, f { r with full_content := some v } = f r) :
    ∀ (l : List Result) (i : Nat), (merge_full m i l).map f = l.map f := by
  intro l
  induction l with
  | nil => intro i; rfl
  | cons r rest ih =>
      intro i
      simp only [merge_full, List.map_cons, ih (i + 1)]
      cases m i with
      | some v => rw [hf r v]
      | none => rfl

/-! ## Auxiliary facts about the selector traces -/

theorem agent_run_trace_cons (env : NetEnv) (maxr : Int) :
    ∃ t, (agent_run env maxr).2 = Attempt.probe :: t := by
  unfold agent_run check_agent
  rw [if_neg (by decide)]
  by_cases hc : env.configOk = true
  · simp [hc]
  · simp [hc]

theorem web_searchT_snd (env : Env) (q : String) (tr : Option String)
    (fc : Bool) (maxr : Int) :
    (web_searchT env q tr fc maxr).2 = (agent_run env.net maxr).2 := by
  unfold web_searchT
  by_cases h1 : (agent_run env.net maxr).1.isEmpty = true
  · simp [h1]
  · by_cases h2 : fc = true
    · simp [h1, h2]
    · simp [h1, h2]

theorem main_web_search_blank (env : NetEnv) (maxr : Int) (q : String)
    (h : pyStrip q = "") :
    main_web_search env maxr q =
      (Except.error "Search query cannot be NULL", [Attempt.probe]) := by
  unfold main_web_search check_agent
  rw [if_neg (by decide)]
  by_cases hc : env.configOk = true
  · simp [hc, main_searxng_search, h]
  · simp [hc, main_ddgs_search, h]

theorem check_agent_probe (env : NetEnv) :
    (check_agent env "searxng").2 = [Attempt.probe] := by
  unfold check_agent
  rw [if_neg (by decide)]
  by_cases hc : env.configOk = true
  · simp [hc]
  · simp [hc]

/-! ## Concrete environments used by witnesses and counterexamples -/

def rec1 : RawRecord :=
  { href := some "https://one.example", url := none, title := "one"
  , body := some "b1", content := none, snippet := none }

def rec2 : RawRecord :=
  { href := some "https://two.example", url := none, title := "two"
  , body := none, content := some "c2", snippet := none }

def netBothFail : NetEnv :=
  { configOk := true, searxngResp := none, ddgsResp := none }

def netSxFailDdOk : NetEnv :=
  { configOk := true, searxngResp := none, ddgsResp := some [rec1, rec2] }

def netSxOk : NetEnv :=
  { configOk := true, searxngResp := some [rec1, rec2], ddgsResp := none }

def netSxOkOne : NetEnv :=
  { configOk := true, searxngResp := some [rec1], ddgsResp := none }

/-- A fetch environment in which every cheap tier fails. -/
def fenvFail : FetchEnv :=
  { head := none, pdf := none, downloaded := false, extracted := none }

/-- A fetch environment in which the structured-text tier succeeds with `t`. -/
def fenvText (t : String) : FetchEnv :=
  { head := some "text/html", pdf := none, downloaded := true, extracted := some t }

def cenvQuiet : CEnv :=
  { fetch := fun _ _ => fenvFail
  , render := fun _ _ => none
  , jsonLoads := fun _ => none
  , jsonLoads2 := fun _ => none }

def envC4 : Env := { net := netSxOkOne, content := cenvQuiet }

/-! ## Claims -/

/-- C1: for every search request in which the preferred backend fails and the
alternate succeeds, the result is exactly the alternate backend's normalized,
limit-truncated list; at most one failover occurs per logical request even
when both backends keep failing, and when the second attempt also fails the
result is the empty list with no further retry (trace length stays 2). -/
theorem claim_C1_one_shot_failover (env : NetEnv) (maxr : Int) (a : String) :
    (∀ rs, env.searxngResp = none → env.ddgsResp = some rs →
      searxng_search env maxr a true =
        (pyTake maxr (rs.map toResult), [Attempt.sx, Attempt.dd])) ∧
    (∀ rs, env.ddgsResp = none → env.searxngResp = some rs → a ≠ "searxng" →
      ddgs_search env maxr a true =
        (pyTake maxr (rs.map toResult), [Attempt.dd, Attempt.sx])) ∧
    (env.searxngResp = none → env.ddgsResp = none →
      searxng_search env maxr a true = ([], [Attempt.sx, Attempt.dd]) ∧
      (ddgs_search env maxr a true).1 = [] ∧
      (ddgs_search env maxr a true).2.length ≤ 2) := by
  refine ⟨?_, ?_, ?_⟩
  · intro rs h1 h2
    simp [searxng_search, ddgs_search, h1, h2]
  · intro rs h1 h2 ha
    simp [searxng_search, ddgs_search, h1, h2, ha]
  · intro h1 h2
    refine ⟨by simp [searxng_search, ddgs_search, h1, h2], ?_, ?_⟩
    · by_cases ha : a = "searxng"
      · simp [searxng_search, ddgs_search, h1, h2, ha]
      · simp [searxng_search, ddgs_search, h1, h2, ha]
    · by_cases ha : a = "searxng"
      · simp [searxng_search, ddgs_search, h1, h2, ha]
      · simp [searxng_search, ddgs_search, h1, h2, ha]

/-- Witness for C1 at concrete environments: SearXNG fails and DDGS answers
two records (preferred "searxng"); DDGS fails and SearXNG answers (preferred
"ddgs"); both fail. -/
theorem claim_C1_witness :
    searxng_search netSxFailDdOk 5 "searxng" true =
      (pyTake 5 ([rec1, rec2].map toResult), [Attempt.sx, Attempt.dd]) ∧
    ddgs_search netSxOk 5 "ddgs" true =
      (pyTake 5 ([rec1, rec2].map toResult), [Attempt.dd, Attempt.sx]) ∧
    searxng_search netBothFail 5 "searxng" true = ([], [Attempt.sx, Attempt.dd]) :=
  ⟨(claim_C1_one_shot_failover netSxFailDdOk 5 "searxng").1 [rec1, rec2] rfl rfl,
   (claim_C1_one_shot_failover netSxOk 5 "ddgs").2.1 [rec1, rec2] rfl rfl (by decide),
   ((claim_C1_one_shot_failover netBothFail 5 "searxng").2.2 rfl rfl).1⟩

/-- C8 counterexample: the claim says a request with max_results ≤ 0 is
clamped to a positive floor so the result list is not emptied or negatively
sliced; but with two raw results available, max_results = 0 returns the
empty list and max_results = -1 drops the last result. -/
theorem claim_C8_counterexample :
    netSxOk.searxngResp = some [rec1, rec2] ∧
    (searxng_search netSxOk 0 "searxng" true).1 = [] ∧
    (searxng_search netSxOk (-1) "searxng" true).1 = [toResult rec1] := by
  refine ⟨rfl, ?_, ?_⟩
  · simp [searxng_search, netSxOk, pyTake]
  · simp [searxng_search, netSxOk, pyTake]

/-- C8 amended: max_results is not clamped at all; the Python slice is
applied as-is, so a successful backend response of n records yields [] for
max_results = 0 and the first n-(k+1) records for max_results = -(k+1). -/
theorem claim_C8_amended (env : NetEnv) (a : String) (rs : List RawRecord)
    (h : env.searxngResp = some rs) :
    (searxng_search env 0 a true).1 = [] ∧
    (∀ k : Nat, (searxng_search env (-(k + 1 : Int)) a true).1 =
      (rs.map toResult).take (rs.length - (k + 1))) := by
  constructor
  · simp [searxng_search, h, pyTake]
  · intro k
    have hneg : ¬(0 : Int) ≤ -(k + 1 : Int) := by omega
    simp [searxng_search, h, pyTake, hneg]
    omega

/-- Witness for C8 amended at the concrete two-record environment. -/
theorem claim_C8_witness :
    netSxOk.searxngResp = some [rec1, rec2] ∧
    (searxng_search netSxOk 0 "searxng" true).1 = [] ∧
    (searxng_search netSxOk (-(0 + 1 : Int)) "searxng" true).1 =
      ([rec1, rec2].map toResult).take ([rec1, rec2].length - (0 + 1)) :=
  ⟨rfl,
   (claim_C8_amended netSxOk "searxng" [rec1, rec2] rfl).1,
   (claim_C8_amended netSxOk "searxng" [rec1, rec2] rfl).2 0⟩

/-- C4 counterexample: the claim says an empty or whitespace-only query
fails fast with an InvalidRequest error before any network call, with no
availability probe and no search request.  In the packaged code the empty
query is not validated at all: the probe and the SearXNG search request are
both issued and a normal result list is returned; in the legacy main.py
revision a ValueError is raised, but only after the availability probe has
already gone out. -/
theorem claim_C4_counterexample :
    (web_searchT envC4 "" none false 5).2 = [Attempt.probe, Attempt.sx] ∧
    (web_searchT envC4 "" none false 5).1 = [toResult rec1] ∧
    main_web_search envC4.net 5 "" =
      (Except.error "Search query cannot be NULL", [Attempt.probe]) := by
  refine ⟨?_, ?_, ?_⟩
  · simp [web_searchT, agent_run, check_agent, searxng_search, envC4, netSxOkOne,
      pyTake]
  · simp [web_searchT, agent_run, check_agent, searxng_search, envC4, netSxOkOne,
      pyTake]
  · exact main_web_search_blank envC4.net 5 "" rfl

/-- C4 amended: a blank query is not rejected before network traffic.  The
packaged search always produces a non-empty network trace (the probe plus at
least one backend attempt), and the legacy main.py revision raises its
ValueError only after the availability probe made at agent construction. -/
theorem claim_C4_amended (env : Env) (q : String) (tr : Option String)
    (fc : Bool) (maxr : Int) (h : pyStrip q = "") :
    (web_searchT env q tr fc maxr).2 ≠ [] ∧
    main_web_search env.net maxr q =
      (Except.error "Search query cannot be NULL", [Attempt.probe]) ∧
    (check_agent env.net "searxng").2 = [Attempt.probe] := by
  refine ⟨?_, main_web_search_blank env.net maxr q h, check_agent_probe env.net⟩
  rw [web_searchT_snd]
  obtain ⟨t, ht⟩ := agent_run_trace_cons env.net maxr
  rw [ht]
  simp

/-- Witness for C4 amended at a whitespace-only query. -/
theorem claim_C4_witness :
    pyStrip " " = "" ∧
    ((web_searchT envC4 " " none false 5).2 ≠ [] ∧
     main_web_search envC4.net 5 " " =
       (Except.error "Search query cannot be NULL", [Attempt.probe]) ∧
     (check_agent envC4.net "searxng").2 = [Attempt.probe]) :=
  ⟨rfl, claim_C4_amended envC4 " " none false 5 rfl⟩

/-- Mixed environment: URL "a" resolves at the cheap tier, everything else
is deferred and rendering fails. -/
def cenvMix : CEnv :=
  { fetch := fun _ u => if u = "a" then fenvText "ta" else fenvFail
  , render := fun _ _ => none
  , jsonLoads := fun _ => none
  , jsonLoads2 := fun _ => none }

/-- C2: for every batch of n >= 1 URLs, the aggregated result has exactly one
entry for every position in [0, n) -- possibly the empty string, never
absent: a batch of one yields the single-mode value, and a batch of two or
more yields a mapping whose key set is exactly [0, n). -/
theorem claim_C2_batch_complete (env : CEnv) (l : List String)
    (hne : ∀ u ∈ l, u ≠ "") :
    (l.length = 1 → ∃ s, get_url_content env (UrlsInput.list l) = DumpResult.str s) ∧
    (2 ≤ l.length → ∃ dm, get_url_content env (UrlsInput.list l) = DumpResult.dict dm ∧
      ∀ i, (dm i).isSome ↔ i < l.length) := by
  have hfil : l.filter truthyStr = l := by
    rw [List.filter_eq_self]
    intro a ha
    simp [truthyStr, hne a ha]
  constructor
  · intro h1
    unfold get_url_content
    simp only [hfil]
    apply dump_str_shape
    rw [processUrls_isdict]
    simp [UrlContent.init, h1]
  · intro h2
    obtain ⟨dm, heq, hin, hhigh⟩ := guc_list_char env l hne h2
    refine ⟨dm, heq, ?_⟩
    intro i
    by_cases hi : i < l.length
    · rw [hin i hi]
      cases hfx : fetchText (smart_fetch (env.fetch i (l.get ⟨i, hi⟩))) <;> simp [hi]
    · rw [hhigh i (by omega)]
      simp
      omega

/-- Witness for C2 on a two-URL batch where the first URL resolves cheaply
and the second is deferred to a failing render pass. -/
theorem claim_C2_witness :
    (∀ u ∈ ["a", "b"], u ≠ "") ∧
    (2 ≤ (["a", "b"] : List String).length) ∧
    (∃ dm, get_url_content cenvMix (UrlsInput.list ["a", "b"]) = DumpResult.dict dm ∧
      ∀ i, (dm i).isSome ↔ i < (["a", "b"] : List String).length) :=
  ⟨by decide, by decide,
   (claim_C2_batch_complete cenvMix ["a", "b"] (by decide)).2 (by decide)⟩

/-- C3: the content-retrieval operation returns a bare string for exactly one
URL and a positional mapping for more than one; when the single URL was
deferred, the render output at position 0 is unwrapped into that bare string
and a missing position 0 defaults to the empty string (the getD ""). -/
theorem claim_C3_shape (env : CEnv) (u : String) (hu : u ≠ "") :
    (∃ s, get_url_content env (UrlsInput.list [u]) = DumpResult.str s) ∧
    (∀ l : List String, (∀ v ∈ l, v ≠ "") → 2 ≤ l.length →
      ∃ dm, get_url_content env (UrlsInput.list l) = DumpResult.dict dm) ∧
    (fetchText (smart_fetch (env.fetch 0 u)) = none →
      get_url_content env (UrlsInput.list [u]) =
        DumpResult.str ((fetch_rendered_text env.render [(0, u)] 0).getD "")) := by
  have hfil : [u].filter truthyStr = [u] := by
    rw [List.filter_eq_self]
    intro a ha
    simp at ha
    simp [truthyStr, ha, hu]
  refine ⟨?_, ?_, ?_⟩
  · unfold get_url_content
    simp only [hfil]
    apply dump_str_shape
    rw [processUrls_isdict]
    simp [UrlContent.init]
  · intro l hl h2
    obtain ⟨dm, heq, _, _⟩ := guc_list_char env l hl h2
    exact ⟨dm, heq⟩
  · intro hf
    unfold get_url_content
    simp only [hfil]
    show (processUrls env (UrlContent.init 1) [u]).dump env.render = _
    rw [processUrls_cons_none env (UrlContent.init 1) u [] hf]
    rfl

/-- Witness for C3 on the single URL "a" with all cheap tiers failing. -/
theorem claim_C3_witness :
    ("a" ≠ "") ∧
    (∃ s, get_url_content cenvQuiet (UrlsInput.list ["a"]) = DumpResult.str s) ∧
    (get_url_content cenvQuiet (UrlsInput.list ["a"]) =
      DumpResult.str ((fetch_rendered_text cenvQuiet.render [(0, "a")] 0).getD "")) :=
  ⟨by decide,
   (claim_C3_shape cenvQuiet "a" (by decide)).1,
   (claim_C3_shape cenvQuiet "a" (by decide)).2.2 rfl⟩

/-- C5: a URL whose extraction succeeds at a cheap tier is never added to the
render queue, and the queue holds exactly the positions whose cheap tiers
produced no usable text. -/
theorem claim_C5_cheap_tier_not_queued (env : CEnv) (l : List String)
    (i : Nat) (hi : i < l.length) :
    qlookup (processUrls env (UrlContent.init l.length) l).pw_queue i =
      (if (fetchText (smart_fetch (env.fetch i (l.get ⟨i, hi⟩)))).isSome then none
       else some (l.get ⟨i, hi⟩)) := by
  have h := (processUrls_char env l (UrlContent.init l.length) (Cinv_init _) i hi).2
  rw [show (UrlContent.init l.length).index = 0 from rfl] at h
  simpa using h

/-- Witness for C5: position 0 resolves cheaply and stays out of the queue;
position 1 fails the cheap tiers and is queued. -/
theorem claim_C5_witness :
    (0 < (["a", "b"] : List String).length) ∧
    qlookup (processUrls cenvMix (UrlContent.init (["a", "b"] : List String).length)
      ["a", "b"]).pw_queue 0 = none ∧
    qlookup (processUrls cenvMix (UrlContent.init (["a", "b"] : List String).length)
      ["a", "b"]).pw_queue 1 = some "b" := by
  refine ⟨by decide, ?_, ?_⟩
  · have h := claim_C5_cheap_tier_not_queued cenvMix ["a", "b"] 0 (by decide)
    rw [h]
    rfl
  · have h := claim_C5_cheap_tier_not_queued cenvMix ["a", "b"] 1 (by decide)
    rw [h]
    rfl

/-- C6: in the render pass, every queued position always receives a result;
a position whose navigation or parse fails gets the empty string, and the
rest of the batch is unaffected, each receiving the text of its own render
outcome. -/
theorem claim_C6_render_isolation (render : Nat → String → Option String)
    (q : List (Nat × String)) (hnd : (q.map Prod.fst).Nodup) :
    ∀ p ∈ q, fetch_rendered_text render q p.1 = some (renderVal (render p.1 p.2)) ∧
      (render p.1 p.2 = none → fetch_rendered_text render q p.1 = some "") := by
  intro p hp
  have hql : qlookup q p.1 = some p.2 := qlookup_of_mem_nodup q p.1 p.2 hnd hp
  have h := frt_apply render q p.1 hnd
  rw [hql] at h
  simp only at h
  refine ⟨h, fun hr => ?_⟩
  rw [h, hr]
  rfl

def renderW : Nat → String → Option String :=
  fun _ u => if u = "a" then none else some "x"

def qW : List (Nat × String) := [(0, "a"), (1, "b")]

/-- Witness for C6: in a two-entry queue the render of "a" fails and yields
the empty string at position 0, while position 1 still gets its text. -/
theorem claim_C6_witness :
    ((qW.map Prod.fst).Nodup) ∧
    fetch_rendered_text renderW qW 0 = some "" ∧
    fetch_rendered_text renderW qW 1 = some "x" := by
  refine ⟨by decide, ?_, ?_⟩
  · exact (claim_C6_render_isolation renderW qW (by decide) (0, "a") (by decide)).2 rfl
  · have h := (claim_C6_render_isolation renderW qW (by decide) (1, "b") (by decide)).1
    rw [h]
    rfl

/-- C9 counterexample: the claim says a non-bracketed single string
containing a comma always yields a positional mapping; but the string "a,"
contains a comma, splits to the single URL "a", and yields a bare string. -/
theorem claim_C9_counterexample :
    pyContainsChar (pyStrip "a,") ',' = true ∧
    (pyStartsWith (pyStrip "a,") "[" && pyEndsWith (pyStrip "a,") "]") = false ∧
    get_url_content cenvQuiet (UrlsInput.str "a,") = DumpResult.str "" ∧
    (∀ dm, get_url_content cenvQuiet (UrlsInput.str "a,") ≠ DumpResult.dict dm) := by
  refine ⟨by decide, by decide, rfl, ?_⟩
  intro dm h
  rw [show get_url_content cenvQuiet (UrlsInput.str "a,") = DumpResult.str "" from rfl] at h
  exact DumpResult.noConfusion h

/-- C9 amended: a non-bracketed single string containing a comma is split on
commas with stripping, empty segments dropped; the caller receives a
positional mapping exactly when at least two segments survive. -/
theorem claim_C9_amended (env : CEnv) (s : String)
    (hb : (pyStartsWith (pyStrip s) "[" && pyEndsWith (pyStrip s) "]") = false)
    (hc : pyContainsChar (pyStrip s) ',' = true)
    (h2 : 2 ≤ (((pySplit ',' (pyStrip s)).map pyStrip).filter truthyStr).length) :
    ∃ dm, get_url_content env (UrlsInput.str s) = DumpResult.dict dm := by
  unfold get_url_content
  simp only [hb, Bool.false_eq_true, if_false, hc, if_true]
  have hfil2 : (((pySplit ',' (pyStrip s)).map pyStrip).filter truthyStr).filter
      truthyStr =
      ((pySplit ',' (pyStrip s)).map pyStrip).filter truthyStr := by
    rw [List.filter_eq_self]
    intro a ha
    exact (List.mem_filter.mp ha).2
  rw [hfil2]
  apply dump_dict_shape
  rw [processUrls_isdict]
  simp [UrlContent.init]
  omega

/-- Witness for C9 amended on "a,b", which splits into two URLs and yields a
mapping. -/
theorem claim_C9_witness :
    (pyStartsWith (pyStrip "a,b") "[" && pyEndsWith (pyStrip "a,b") "]") = false ∧
    pyContainsChar (pyStrip "a,b") ',' = true ∧
    2 ≤ (((pySplit ',' (pyStrip "a,b")).map pyStrip).filter truthyStr).length ∧
    ∃ dm, get_url_content cenvQuiet (UrlsInput.str "a,b") = DumpResult.dict dm :=
  ⟨by decide, by decide, by decide,
   claim_C9_amended cenvQuiet "a,b" (by decide) (by decide) (by decide)⟩

/-- C10: an empty URL list, or a list whose entries are all empty strings
(filtered out before processing), yields the bare empty string -- the
single-mode shape -- not an empty mapping and not an error. -/
theorem claim_C10_empty_input (env : CEnv) (l : List String)
    (h : ∀ u ∈ l, u = "") :
    get_url_content env (UrlsInput.list l) = DumpResult.str "" := by
  have hfil : l.filter truthyStr = [] := by
    rw [List.filter_eq_nil]
    intro a ha
    simp [truthyStr, h a ha]
  unfold get_url_content
  simp only [hfil]
  rfl

/-- Witness for C10 on a list of two empty strings. -/
theorem claim_C10_witness :
    (∀ u ∈ ["", ""], u = "") ∧
    get_url_content cenvQuiet (UrlsInput.list ["", ""]) = DumpResult.str "" :=
  ⟨by decide, claim_C10_empty_input cenvQuiet ["", ""] (by decide)⟩

/-- Projecting away full_content is invariant under the single-result string
merge of web_search. -/
theorem map_proj_update (l : List Result) (s : String) :
    (l.map (fun r => { r with full_content := some s })).map
      (fun r => (r.url, r.title, r.snippet)) =
    l.map (fun r => (r.url, r.title, r.snippet)) := by
  induction l with
  | nil => rfl
  | cons r t ih => simp [ih]

/-- C7 amended: a failed full-content retrieval never discards a result --
url, title and snippet of every returned result are exactly those of the
search results, for any full_content flag -- but on a total per-URL failure
(no usable cheap-tier text and a failed render) the result's full_content is
set to the empty string, i.e. present as "" rather than staying absent. -/
theorem claim_C7_amended (env : Env) (q : String) (tr : Option String)
    (maxr : Int) :
    (∀ fc, ((web_searchT env q tr fc maxr).1).map (fun r => (r.url, r.title, r.snippet)) =
      ((agent_run env.net maxr).1).map (fun r => (r.url, r.title, r.snippet))) ∧
    (∀ (i : Nat) (r0 : Result), (agent_run env.net maxr).1.get? i = some r0 →
      2 ≤ (agent_run env.net maxr).1.length →
      (∀ r ∈ (agent_run env.net maxr).1, r.url ≠ "") →
      fetchText (smart_fetch (env.content.fetch i r0.url)) = none →
      env.content.render i r0.url = none →
      ∃ r1, (web_searchT env q tr true maxr).1.get? i = some r1 ∧
        r1.url = r0.url ∧ r1.title = r0.title ∧ r1.snippet = r0.snippet ∧
        r1.full_content = some "") := by
  constructor
  · intro fc
    simp only [web_searchT]
    by_cases h1 : (agent_run env.net maxr).1.isEmpty = true
    · rw [if_pos h1]
      rw [List.isEmpty_iff.mp h1]
    · rw [if_neg h1]
      by_cases h2 : fc = true
      · rw [if_pos h2]
        cases hres : get_url_content env.content
            (UrlsInput.list ((agent_run env.net maxr).1.map (fun r => r.url))) with
        | dict m =>
            exact merge_full_map m (fun r => (r.url, r.title, r.snippet))
              (fun r v => rfl) _ 0
        | str s =>
            by_cases h3 : (agent_run env.net maxr).1.length = 1
            · show ((if (agent_run env.net maxr).1.length = 1 then _ else _ : List Result)).map _ = _
              rw [if_pos h3]
              exact map_proj_update _ s
            · show ((if (agent_run env.net maxr).1.length = 1 then _ else _ : List Result)).map _ = _
              rw [if_neg h3]
      · rw [if_neg h2]
  · intro i r0 hi hlen hurl hfx hrender
    have hilen : i < (agent_run env.net maxr).1.length := by
      rcases List.get?_eq_some.mp hi with ⟨h, _⟩
      exact h
    have hne' : ∀ u ∈ (agent_run env.net maxr).1.map (fun r => r.url), u ≠ "" := by
      intro u hu
      rcases List.mem_map.mp hu with ⟨r, hr, he⟩
      rw [← he]
      exact hurl r hr
    have hlen' : 2 ≤ ((agent_run env.net maxr).1.map (fun r => r.url)).length := by
      rw [List.length_map]
      exact hlen
    obtain ⟨dm, hguc, hin, hhigh⟩ :=
      guc_list_char env.content ((agent_run env.net maxr).1.map (fun r => r.url)) hne' hlen'
    have hilen2 : i < ((agent_run env.net maxr).1.map (fun r => r.url)).length := by
      rw [List.length_map]
      exact hilen
    have hgetu : ((agent_run env.net maxr).1.map (fun r => r.url)).get ⟨i, hilen2⟩ = r0.url := by
      have hg := List.get?_eq_get hilen2
      rw [List.get?_map, hi] at hg
      exact (Option.some.inj hg).symm
    have hdm : dm i = some "" := by
      have h' := hin i hilen2
      rw [hgetu, hfx, hrender] at h'
      simpa [renderVal] using h'
    have hbne : ¬((agent_run env.net maxr).1.isEmpty = true) := by
      intro h
      rw [List.isEmpty_iff.mp h] at hlen
      simp at hlen
    simp only [web_searchT]
    rw [if_neg hbne, if_pos trivial, hguc]
    refine ⟨{ r0 with full_content := some "" }, ?_, rfl, rfl, rfl, rfl⟩
    show (merge_full dm 0 (agent_run env.net maxr).1).get? i = _
    rw [merge_full_get? dm (agent_run env.net maxr).1 0 i, hi]
    simp [hdm]

def cenvC7 : CEnv :=
  { fetch := fun _ u => if u = "https://one.example" then fenvText "t1" else fenvFail
  , render := fun _ _ => none
  , jsonLoads := fun _ => none
  , jsonLoads2 := fun _ => none }

def envC7 : Env := { net := netSxOk, content := cenvC7 }

theorem agent_run_envC7 :
    agent_run envC7.net 5 =
      ([toResult rec1, toResult rec2], [Attempt.probe, Attempt.sx]) := by
  simp [agent_run, check_agent, searxng_search, envC7, netSxOk, pyTake]

/-- C7 counterexample: the claim says that when full-content retrieval fails
for one result, its full_content field simply stays absent; but in the code
the failed position receives the empty string from the render pass and the
merge assigns it, so full_content is present as "" (and survives
model_dump(exclude_none=True), which only drops None).  The snippet is
indeed retained. -/
theorem claim_C7_counterexample :
    (web_searchT envC7 "q" none true 5).1.map (fun r => r.snippet) =
      [some "b1", some "c2"] ∧
    (web_searchT envC7 "q" none true 5).1.map (fun r => r.full_content) =
      [some "t1", some ""] ∧
    ∀ r ∈ (web_searchT envC7 "q" none true 5).1, r.full_content ≠ none := by
  have hw : (web_searchT envC7 "q" none true 5).1 =
      [{ url := "https://one.example", title := "one", snippet := some "b1"
       , full_content := some "t1" },
       { url := "https://two.example", title := "two", snippet := some "c2"
       , full_content := some "" }] := by
    simp only [web_searchT, agent_run_envC7]
    rfl
  rw [hw]
  refine ⟨rfl, rfl, by decide⟩

/-- Witness for C7 amended at the concrete environment: position 1 fails
every tier and ends up with full_content = some "". -/
theorem claim_C7_witness :
    (agent_run envC7.net 5).1.get? 1 = some (toResult rec2) ∧
    2 ≤ (agent_run envC7.net 5).1.length ∧
    (∀ r ∈ (agent_run envC7.net 5).1, r.url ≠ "") ∧
    fetchText (smart_fetch (envC7.content.fetch 1 (toResult rec2).url)) = none ∧
    envC7.content.render 1 (toResult rec2).url = none ∧
    (∃ r1, (web_searchT envC7 "q" none true 5).1.get? 1 = some r1 ∧
      r1.url = (toResult rec2).url ∧ r1.title = (toResult rec2).title ∧
      r1.snippet = (toResult rec2).snippet ∧ r1.full_content = some "") := by
  refine ⟨by rw [agent_run_envC7]; rfl, by rw [agent_run_envC7]; decide,
    by rw [agent_run_envC7]; decide, rfl, rfl, ?_⟩
  exact (claim_C7_amended envC7 "q" none 5).2 1 (toResult rec2)
    (by rw [agent_run_envC7]; rfl) (by rw [agent_run_envC7]; decide)
    (by rw [agent_run_envC7]; decide) rfl rfl

end Websearx
